import Mathlib

/-!
# visitlets: lattice values, patterns and pattern registration

A shallow embedding of `analysis.h`, `patterns.h` and the rule `SimplerAdd` of
`main.cpp`.

* C++ `int` fields are `Int` fields; `RangeValue.isInt` says that both fields
  lie between `INT_MIN` and `INT_MAX`, as every `int` does.  No function of
  `RangeValue` does arithmetic, so nothing can overflow.
* A pointer is its address, a `Nat`; `nullptr` is address `0`, and `(int*)1`
  is address `1`.  Pointers are only ever compared for equality.
* A member function that changes the receiver returns the new receiver next
  to its C++ return value.
-/

namespace Visitlets

/-! ## Machine constants -/

/-- The constant `INT_MIN` of `<climits>` for a 32-bit `int`. -/
def INT_MIN : Int := -2147483648

/-- The constant `INT_MAX` of `<climits>` for a 32-bit `int`. -/
def INT_MAX : Int := 2147483647

/-- A pointer, as its address. -/
abbrev Ptr := Nat

/-- The null pointer. -/
def nullptr : Ptr := 0

/-! ## `RangeValue` -/

/-- The class `RangeValue`: the private fields `min_` and `max_`. -/
structure RangeValue where
  min_ : Int
  max_ : Int
  deriving DecidableEq, Repr

namespace RangeValue

/-- Both fields are values of the C++ type `int`. -/
def isInt (x : RangeValue) : Prop :=
  INT_MIN ≤ x.min_ ∧ x.min_ ≤ INT_MAX ∧ INT_MIN ≤ x.max_ ∧ x.max_ ≤ INT_MAX

instance (x : RangeValue) : Decidable x.isInt := by
  unfold isInt; infer_instance

/-- The bounds are ordered, or the value is the canonical bottom
`[INT_MAX, INT_MIN]`. -/
def wellFormed (x : RangeValue) : Prop :=
  x.min_ ≤ x.max_ ∨ (x.min_ = INT_MAX ∧ x.max_ = INT_MIN)

instance (x : RangeValue) : Decidable x.wellFormed := by
  unfold wellFormed; infer_instance

/-- Embeds `int min() const`. -/
def min (x : RangeValue) : Int := x.min_

/-- Embeds `int max() const`. -/
def max (x : RangeValue) : Int := x.max_

/-- Embeds `bool isTop() const`. -/
def isTop (x : RangeValue) : Bool :=
  x.min_ == INT_MIN && x.max_ == INT_MAX

/-- Embeds `bool isBottom() const`. -/
def isBottom (x : RangeValue) : Bool :=
  x.min_ == INT_MAX && x.max_ == INT_MIN

/-- Embeds `bool operator == (RangeValue const & other) const`. -/
def operator_eq (x other : RangeValue) : Bool :=
  x.min_ == other.min_ && x.max_ == other.max_

/-- Embeds `bool operator <= (RangeValue const & other) const`. -/
def operator_le (x other : RangeValue) : Bool :=
  if x.isBottom || other.isTop then
    true
  else
    decide (x.min_ ≥ other.min_) && decide (x.max_ ≤ other.max_)

/-- Embeds `bool mergeWith(RangeValue const & other)`: the receiver after the call,
and the returned flag. -/
def mergeWith (x other : RangeValue) : RangeValue × Bool :=
  let s0 : RangeValue × Bool := (x, false)
  let s1 : RangeValue × Bool :=
    if other.min_ < s0.1.min_ then ({ s0.1 with min_ := other.min_ }, true) else s0
  let s2 : RangeValue × Bool :=
    if other.max_ > s1.1.max_ then ({ s1.1 with max_ := other.max_ }, true) else s1
  s2

/-- Membership of the integer `n` in the interval that `x` stands for: `n`
lies between `x.min()` and `x.max()`. -/
def S (x : RangeValue) (n : Int) : Prop :=
  x.min ≤ n ∧ n ≤ x.max

instance (x : RangeValue) (n : Int) : Decidable (x.S n) := by
  unfold S; infer_instance

end RangeValue

/-! ## `CallTargetValue` -/

/-- The enumeration `CallTargetValue::Accuracy`. -/
inductive Accuracy where
  | Possible
  | Certain
  deriving DecidableEq, Repr

/-- The class `CallTargetValue`: the private fields `accuracy_` and `target_`
(a `char const *`). -/
structure CallTargetValue where
  accuracy_ : Accuracy
  target_ : Ptr
  deriving DecidableEq, Repr

namespace CallTargetValue

/-- Embeds `Accuracy accuracy() const`. -/
def accuracy (x : CallTargetValue) : Accuracy := x.accuracy_

/-- Embeds `char const * target() const`. -/
def target (x : CallTargetValue) : Ptr := x.target_

/-- Embeds `bool isTop() const`. -/
def isTop (x : CallTargetValue) : Bool :=
  x.target_ == nullptr && x.accuracy_ == Accuracy.Possible

/-- Embeds `bool isBottom() const`. -/
def isBottom (x : CallTargetValue) : Bool :=
  x.target_ == nullptr && x.accuracy_ == Accuracy.Certain

/-- Embeds `bool operator == (CallTargetValue const & other) const`. -/
def operator_eq (x other : CallTargetValue) : Bool :=
  x.target_ == other.target_ && x.accuracy_ == other.accuracy_

/-- Embeds `bool operator <= (CallTargetValue const & other) const`. -/
def operator_le (x other : CallTargetValue) : Bool :=
  if x.isBottom || other.isTop then
    true
  else if x.target_ != other.target_ then
    false
  else
    x.accuracy_ == Accuracy.Possible || other.accuracy_ == Accuracy.Certain

/-- Embeds `bool mergeWith(CallTargetValue const & other)`: the receiver after the
call, and the returned flag. -/
def mergeWith (x other : CallTargetValue) : CallTargetValue × Bool :=
  let s0 : CallTargetValue × Bool := (x, false)
  let s1 : CallTargetValue × Bool :=
    if s0.1.target_ != other.target_ then ({ s0.1 with target_ := nullptr }, true) else s0
  let s2 : CallTargetValue × Bool :=
    if s1.1.accuracy_ == Accuracy.Certain && other.accuracy_ == Accuracy.Possible then
      ({ s1.1 with accuracy_ := Accuracy.Possible }, true)
    else s1
  s2

end CallTargetValue

/-! ## `TypeShapeValue` -/

/-- The enumeration `TypeShapeValue::Type`. -/
inductive TypeTag where
  | Bottom
  | Int
  | Double
  | Any
  deriving DecidableEq, Repr

/-- The enumeration `TypeShapeValue::Shape`. -/
inductive Shape where
  | Naked
  | Any
  deriving DecidableEq, Repr

/-- The class `TypeShapeValue`: the private fields `type_` and `shape_`. -/
structure TypeShapeValue where
  type_ : TypeTag
  shape_ : Shape
  deriving DecidableEq, Repr

namespace TypeShapeValue

/-- Embeds `Type type() const`. -/
def type (x : TypeShapeValue) : TypeTag := x.type_

/-- Embeds `Shape shape() const`. -/
def shape (x : TypeShapeValue) : Shape := x.shape_

/-- Embeds `bool isBottom() const`. -/
def isBottom (x : TypeShapeValue) : Bool :=
  x.type_ == TypeTag.Bottom

/-- Embeds `bool isTop() const`. -/
def isTop (x : TypeShapeValue) : Bool :=
  x.type_ == TypeTag.Any && x.shape_ == Shape.Any

/-- Embeds `bool operator == (TypeShapeValue const & other) const`. -/
def operator_eq (x other : TypeShapeValue) : Bool :=
  x.type_ == other.type_ && x.shape_ == other.shape_

/-- Embeds `bool operator <= (TypeShapeValue const & other) const`; the source ends
in `return false` under a TODO. -/
def operator_le (x other : TypeShapeValue) : Bool :=
  if x.isBottom || other.isTop then
    true
  else
    false

/-- Embeds `bool mergeWith(TypeShapeValue const & other)`: the body is
`return false`, the receiver is left as it was. -/
def mergeWith (x _other : TypeShapeValue) : TypeShapeValue × Bool :=
  (x, false)

end TypeShapeValue

/-! ## `ConstantsValue` -/

/-- The class `ConstantsValue`: the private field `value_` (an `int *`). -/
structure ConstantsValue where
  value_ : Ptr
  deriving DecidableEq, Repr

namespace ConstantsValue

/-- Embeds `int * value() const`. -/
def value (x : ConstantsValue) : Ptr := x.value_

/-- Embeds `bool isConstant() const`: `(uintptr_t) value_ > 1`. -/
def isConstant (x : ConstantsValue) : Bool :=
  decide (x.value_ > 1)

/-- Embeds `bool isTop() const`. -/
def isTop (x : ConstantsValue) : Bool :=
  x.value_ == nullptr

/-- Embeds `bool isBottom() const`: `value_ == (int*)1`. -/
def isBottom (x : ConstantsValue) : Bool :=
  x.value_ == 1

/-- Embeds `bool operator == (ConstantsValue const & other) const`. -/
def operator_eq (x other : ConstantsValue) : Bool :=
  x.value_ == other.value_

/-- Embeds `bool operator <= (ConstantsValue const & other) const`. -/
def operator_le (x other : ConstantsValue) : Bool :=
  if x.isBottom || other.isTop then
    true
  else
    x.value_ == other.value_

/-- Embeds `bool mergeWith(ConstantsValue const & other)`: the body is
`return false`, the receiver is left as it was. -/
def mergeWith (x _other : ConstantsValue) : ConstantsValue × Bool :=
  (x, false)

end ConstantsValue

/-! ## The analyses' value constructors (`namespace analysis`) -/

namespace analysis

namespace Range

/-- Embeds `static Value constant(int value)`. -/
def constant (value : Int) : RangeValue := ⟨value, value⟩

/-- Embeds `static Value range(int min, int max)`; `none` when the assertion
`min <= max` fails. -/
def range (min max : Int) : Option RangeValue :=
  if min ≤ max then some ⟨min, max⟩ else none

/-- Embeds `static Value top()`. -/
def top : RangeValue := ⟨INT_MIN, INT_MAX⟩

/-- Embeds `static Value bottom()`. -/
def bottom : RangeValue := ⟨INT_MAX, INT_MIN⟩

end Range

namespace CallTarget

/-- Embeds `static Value certain(char const * target)`. -/
def certain (target : Ptr) : CallTargetValue := ⟨Accuracy.Certain, target⟩

/-- Embeds `static Value possible(char const * target)`. -/
def possible (target : Ptr) : CallTargetValue := ⟨Accuracy.Possible, target⟩

/-- Embeds `static Value top()`. -/
def top : CallTargetValue := ⟨Accuracy.Possible, nullptr⟩

/-- Embeds `static Value bottom()`. -/
def bottom : CallTargetValue := ⟨Accuracy.Certain, nullptr⟩

end CallTarget

namespace TypeShape

/-- Embeds `static Value create(Value::Type type, Value::Shape shape = Value::Shape::Any)`. -/
def create (type : TypeTag) (shape : Shape) : TypeShapeValue := ⟨type, shape⟩

/-- Embeds `static Value naked(Value::Type type)`. -/
def naked (type : TypeTag) : TypeShapeValue := ⟨type, Shape.Naked⟩

/-- Embeds `static Value top()`. -/
def top : TypeShapeValue := ⟨TypeTag.Any, Shape.Any⟩

/-- Embeds `static Value bottom()`. -/
def bottom : TypeShapeValue := ⟨TypeTag.Bottom, Shape.Any⟩

end TypeShape

namespace Constants

/-- Embeds `static Value constant(int * what)`. -/
def constant (what : Ptr) : ConstantsValue := ⟨what⟩

/-- Embeds `static Value top()`. -/
def top : ConstantsValue := ⟨nullptr⟩

/-- Embeds `static Value bottom()`. -/
def bottom : ConstantsValue := ⟨1⟩

end Constants

end analysis

/-! ## Patterns (`patterns.h`) -/

/-- Modelled from the spec: `Instruction::Opcode` is declared in `ir.h`, which
is not among the sources; these are the three opcodes that `patterns.h`
names. -/
inductive Opcode where
  | Push
  | Add
  | Call
  deriving DecidableEq, Repr

/-- The analysis families: the classes that instantiate the template
parameter `ANALYSIS`. -/
inductive Family where
  | Range
  | CallTarget
  | TypeShape
  | Constants
  deriving DecidableEq, Repr

/-- An analysis family together with a value of its `ANALYSIS::Value`. -/
inductive AnalysisValue where
  | Range (value : RangeValue)
  | CallTarget (value : CallTargetValue)
  | TypeShape (value : TypeShapeValue)
  | Constants (value : ConstantsValue)
  deriving DecidableEq, Repr

/-- The family of a value. -/
def AnalysisValue.family : AnalysisValue → Family
  | .Range _ => Family.Range
  | .CallTarget _ => Family.CallTarget
  | .TypeShape _ => Family.TypeShape
  | .Constants _ => Family.Constants

mutual
/-- The concrete classes below `Pattern`: `TypePattern<ANALYSIS>` with its
field `value_`, and the instruction patterns.  (`Any` overrides no pure
virtual function, so no object of it exists.) -/
inductive Pattern where
  | TypePattern (value_ : AnalysisValue)
  | Instruction (p : InstructionPattern)
/-- The concrete classes below `InstructionPattern`: `Push`, `Add` with its
fields `lhs_` and `rhs_`, and `Call` with the arguments of its only
constructor, `Call(f, arguments)`. -/
inductive InstructionPattern where
  | Push
  | Add (lhs_ rhs_ : Pattern)
  | Call (f : Pattern) (arguments : List Pattern)
end

/-- How a call can fail to return. -/
inductive Fault where
  /-- an `assert` failed, with its message -/
  | assertion (message : String)
  /-- an index past the end of a `std::vector`: `operator[]` is unchecked,
  the behaviour undefined -/
  | outOfRange
  deriving DecidableEq, Repr

namespace InstructionPattern

/-- The field `operands_` of `Call` as its constructor fills it: `f` first,
then the arguments in order. -/
def Call_operands_ (f : Pattern) (arguments : List Pattern) : List Pattern :=
  [f] ++ arguments

/-- Embeds `std::vector<Instruction::Opcode> const & matches() const`. -/
def «matches» : InstructionPattern → List Opcode
  | .Push => [Opcode.Push]
  | .Add _ _ => [Opcode.Add]
  | .Call _ _ => [Opcode.Call]

/-- Embeds `size_t operands() const`. -/
def operands : InstructionPattern → Nat
  | .Push => 0
  | .Add _ _ => 2
  | .Call f arguments => (Call_operands_ f arguments).length

/-- Embeds `Pattern * operand(size_t index) const`. -/
def operand : InstructionPattern → Nat → Except Fault Pattern
  | .Push, _ => .error (Fault.assertion "instruction has no operands")
  | .Add lhs_ rhs_, index =>
    if index == 0 then .ok lhs_
    else if index == 1 then .ok rhs_
    else .error (Fault.assertion "instruction has only two operands")
  | .Call f arguments, index =>
    match (Call_operands_ f arguments)[index]? with
    | some p => .ok p
    | none => .error Fault.outOfRange

/-- Embeds `Pattern * lhs() const` of `Add`. -/
def lhs : InstructionPattern → Option Pattern
  | .Add lhs_ _ => some lhs_
  | _ => none

/-- Embeds `Pattern * rhs() const` of `Add`. -/
def rhs : InstructionPattern → Option Pattern
  | .Add _ rhs_ => some rhs_
  | _ => none

/-- Embeds `Pattern * argument(size_t index) const` of `Call`:
`operands_[index + 1]`. -/
def argument : InstructionPattern → Nat → Except Fault Pattern
  | .Call f arguments, index =>
    match (Call_operands_ f arguments)[index + 1]? with
    | some p => .ok p
    | none => .error Fault.outOfRange
  | _, _ => .error Fault.outOfRange

end InstructionPattern

/-! ## The matcher -/

/-- The class `Visitlet`, as far as registration reads it: the result of
`pattern()`. -/
structure Visitlet where
  pattern : Pattern

/-- A line that the matcher writes to `std::cout`. -/
inductive Event where
  /-- the line "Attaching pattern p to analysis index and value value" -/
  | attachToAnalysis (p : Pattern) (index : Nat) (value : AnalysisValue)
  /-- the line "Attaching pattern p to instruction opcode" -/
  | attachToInstruction (p : Pattern) (opcode : Opcode)

/-- The function-local statics `index` of the instances of
`Matcher::analysisIndex<ANALYSIS>`, one per family: `none` until the first
call initialises it. -/
structure Statics where
  Range : Option Nat
  CallTarget : Option Nat
  TypeShape : Option Nat
  Constants : Option Nat
  deriving DecidableEq, Repr

namespace Statics

/-- No instance of `analysisIndex` has been called yet. -/
def initial : Statics := ⟨none, none, none, none⟩

/-- The static of one family. -/
def get (s : Statics) : Family → Option Nat
  | Family.Range => s.Range
  | Family.CallTarget => s.CallTarget
  | Family.TypeShape => s.TypeShape
  | Family.Constants => s.Constants

/-- Initialise the static of one family. -/
def set (s : Statics) (a : Family) (index : Nat) : Statics :=
  match a with
  | Family.Range => { s with Range := some index }
  | Family.CallTarget => { s with CallTarget := some index }
  | Family.TypeShape => { s with TypeShape := some index }
  | Family.Constants => { s with Constants := some index }

end Statics

/-- The state of the process that the member functions of `Matcher` touch
and that all matchers share: the statics of `analysisIndex` and the lines
written to `std::cout`. -/
structure Process where
  statics : Statics
  cout : List Event

/-- A process at its start. -/
def Process.initial : Process := ⟨Statics.initial, []⟩

/-- The class `Matcher` with its fields `visitlets_` and `analyses_`. -/
structure Matcher where
  visitlets_ : List Visitlet
  analyses_ : List Ptr

/-- How a call ends. -/
inductive Outcome where
  /-- the call returned -/
  | returned
  /-- the call did not return -/
  | fault (f : Fault)
  /-- the model ran out of fuel before the call ended -/
  | outOfFuel
  deriving DecidableEq, Repr

namespace Matcher

/-- A matcher as its implicit constructor leaves it: both vectors empty. -/
def initial : Matcher := ⟨[], []⟩

/-- Embeds `size_t reserveAnalysis()`. -/
def reserveAnalysis (m : Matcher) : Nat × Matcher :=
  let result := m.analyses_.length
  (result, { m with analyses_ := m.analyses_ ++ [nullptr] })

/-- Embeds `template<typename ANALYSIS> size_t analysisIndex()`: the static
is initialised by `reserveAnalysis()` on the first call. -/
def analysisIndex (a : Family) (m : Matcher) (g : Process) : Nat × Matcher × Process :=
  match g.statics.get a with
  | some index => (index, m, g)
  | none =>
    let r := m.reserveAnalysis
    (r.1, r.2, { g with statics := g.statics.set a r.1 })

/-- Embeds `template<typename ANALYSIS> void attachToAnalysis(Pattern * p,
typename ANALYSIS::Value const & value)`. -/
def attachToAnalysis (p : Pattern) (value : AnalysisValue) (m : Matcher) (g : Process) :
    Matcher × Process :=
  let r := analysisIndex value.family m g
  (r.2.1, { r.2.2 with cout := r.2.2.cout ++ [Event.attachToAnalysis p r.1 value] })

/-- Embeds `void attachToInstruction(Pattern * p, Instruction::Opcode opcode)`. -/
def attachToInstruction (p : Pattern) (opcode : Opcode) (m : Matcher) (g : Process) :
    Matcher × Process :=
  (m, { g with cout := g.cout ++ [Event.attachToInstruction p opcode] })

end Matcher

/-- The width of `size_t`. -/
def SIZE_BITS : Nat := 64

mutual
/-- Embeds `registerWith(Matcher * matcher)`, dispatched on the class of the
pattern: `TypePattern<ANALYSIS>::registerWith` and
`InstructionPattern::registerWith`. -/
def Pattern.registerWith : Nat → Pattern → Matcher → Process → Outcome × Matcher × Process
  | 0, _, m, g => (Outcome.outOfFuel, m, g)
  | _ + 1, .TypePattern value_, m, g =>
    (Outcome.returned, m.attachToAnalysis (.TypePattern value_) value_ g)
  | fuel + 1, .Instruction p, m, g =>
    let s1 := p.matches.foldl
      (fun acc opcode => acc.1.attachToInstruction (.Instruction p) opcode acc.2) (m, g)
    InstructionPattern.registerWith_operands fuel p 0 p.operands s1.1 s1.2
/-- The second loop of `InstructionPattern::registerWith`,
`for (size_t i = 0, e = operands(); i, e; ++i) operand(i)->registerWith(matcher);`
from the test of its condition on: the condition `i, e` is the comma
operator, whose value is `e`. -/
def InstructionPattern.registerWith_operands :
    Nat → InstructionPattern → Nat → Nat → Matcher → Process → Outcome × Matcher × Process
  | 0, _, _, _, m, g => (Outcome.outOfFuel, m, g)
  | fuel + 1, p, i, e, m, g =>
    if e != 0 then
      match p.operand i with
      | .error f => (Outcome.fault f, m, g)
      | .ok q =>
        match Pattern.registerWith fuel q m g with
        | (Outcome.returned, m1, g1) =>
          InstructionPattern.registerWith_operands fuel p ((i + 1) % 2 ^ SIZE_BITS) e m1 g1
        | r => r
    else
      (Outcome.returned, m, g)
end

namespace Matcher

/-- Embeds `void addVisitlet(Visitlet * visitlet)`. -/
def addVisitlet (fuel : Nat) (visitlet : Visitlet) (m : Matcher) (g : Process) :
    Outcome × Matcher × Process :=
  let m1 := { m with visitlets_ := m.visitlets_ ++ [visitlet] }
  visitlet.pattern.registerWith fuel m1 g

end Matcher

/-! ## Queries of the analyses, and replacement -/

namespace analysis

/-- Embeds `Value const & operator [] (::Pattern * p)` of `Range`: the
function-local static `v` is initialised with `top()` and never written
again; the pointer `p` (`none` for `nullptr`) is not read. -/
def Range.operator_index (_p : Option Pattern) : RangeValue :=
  Range.top

/-- Embeds `Value const & operator [] (::Pattern * p)` of `CallTarget`. -/
def CallTarget.operator_index (_p : Option Pattern) : CallTargetValue :=
  CallTarget.top

/-- Embeds `Value const & operator [] (::Pattern * p)` of `TypeShape`. -/
def TypeShape.operator_index (_p : Option Pattern) : TypeShapeValue :=
  TypeShape.top

/-- Embeds `Value const & operator [] (::Pattern * p) const` of `Constants`. -/
def Constants.operator_index (_p : Option Pattern) : ConstantsValue :=
  Constants.top

end analysis

/-- Embeds `void replaceWith(Pattern * with)` of `Pattern`: the pattern that
stands where the receiver stood, after the call.  The body is empty, so it is
the receiver. -/
def Pattern.replaceWith (receiver _with : Pattern) : Pattern :=
  receiver

/-! ## `SimplerAdd` (`main.cpp`) -/

namespace SimplerAdd

/-- The field `lhs`. -/
def lhs : Pattern := .TypePattern (.TypeShape (analysis.TypeShape.naked TypeTag.Int))

/-- The field `rhs`: `TypeShape::nakedInt()`. -/
def rhs : Pattern := .TypePattern (.TypeShape (analysis.TypeShape.naked TypeTag.Int))

/-- The field `f`: `CallTarget::builtin("+")`, where `plus` is the address of
the string literal. -/
def f (plus : Ptr) : Pattern := .TypePattern (.CallTarget (analysis.CallTarget.certain plus))

/-- The field `e`: `new Call(f, { lhs, rhs })`. -/
def e (plus : Ptr) : Pattern := .Instruction (.Call (f plus) [lhs, rhs])

/-- The visitlet; `pattern()` returns `e`. -/
def visitlet (plus : Ptr) : Visitlet := ⟨e plus⟩

/-- What a call of `match()` did. -/
structure MatchResult where
  /-- the receiver and the argument of the call of `replaceWith`, when
  `match()` made one -/
  replaceWith_call : Option (Pattern × Pattern)
  /-- the pattern that stands where `e` stood, afterwards -/
  e : Pattern

/-- Embeds `void match()`: the first branch is empty in the source. -/
def «match» (plus : Ptr) : MatchResult :=
  let cp_lhs := analysis.Constants.operator_index (some lhs)
  let cp_rhs := analysis.Constants.operator_index (some rhs)
  if cp_lhs.isConstant && cp_rhs.isConstant then
    ⟨none, e plus⟩
  else
    let add : Pattern := .Instruction (.Add lhs rhs)
    ⟨some (e plus, add), (e plus).replaceWith add⟩

end SimplerAdd

/-! ## Shared lemmas -/

/-- Between values whose fields are `int`s, `<=` on `RangeValue` is the
comparison of the bounds: the tests for bottom and top change nothing. -/
theorem RangeValue.operator_le_iff (x y : RangeValue) (hx : x.isInt) (hy : y.isInt) :
    x.operator_le y = true ↔ y.min_ ≤ x.min_ ∧ x.max_ ≤ y.max_ := by
  obtain ⟨a, b⟩ := x
  obtain ⟨c, d⟩ := y
  simp only [RangeValue.isInt, INT_MIN, INT_MAX] at hx hy
  simp only [RangeValue.operator_le, RangeValue.isBottom, RangeValue.isTop, INT_MIN, INT_MAX]
  split_ifs with h
  · simp only [Bool.or_eq_true, Bool.and_eq_true, beq_iff_eq] at h
    simp only [true_iff]
    omega
  · simp

/-- The receiver after `mergeWith` has the smaller `min_`. -/
theorem RangeValue.mergeWith_min_ (x y : RangeValue) :
    (x.mergeWith y).1.min_ = Min.min x.min_ y.min_ := by
  obtain ⟨a, b⟩ := x
  obtain ⟨c, d⟩ := y
  by_cases h1 : c < a <;> by_cases h2 : d > b <;>
    simp only [RangeValue.mergeWith, h1, h2, if_true, if_false] <;> omega

/-- The receiver after `mergeWith` has the larger `max_`. -/
theorem RangeValue.mergeWith_max_ (x y : RangeValue) :
    (x.mergeWith y).1.max_ = Max.max x.max_ y.max_ := by
  obtain ⟨a, b⟩ := x
  obtain ⟨c, d⟩ := y
  by_cases h1 : c < a <;> by_cases h2 : d > b <;>
    simp only [RangeValue.mergeWith, h1, h2, if_true, if_false] <;> omega

/-- The fields of the receiver after `mergeWith` of `int`s are `int`s. -/
theorem RangeValue.mergeWith_isInt (x y : RangeValue) (hx : x.isInt) (hy : y.isInt) :
    (x.mergeWith y).1.isInt := by
  simp only [RangeValue.isInt, RangeValue.mergeWith_min_, RangeValue.mergeWith_max_] at *
  omega

/-- The static of a family holds the index it was initialised with. -/
theorem Statics.get_set_same (s : Statics) (a : Family) (i : Nat) :
    (s.set a i).get a = some i := by
  cases a <;> rfl

/-- Initialising the static of one family leaves those of the others. -/
theorem Statics.get_set_other (s : Statics) (a b : Family) (i : Nat) (h : a ≠ b) :
    (s.set b i).get a = s.get a := by
  cases a <;> cases b <;> first | rfl | exact absurd rfl h

/-- The operand loop of `registerWith`, entered with `e` not zero, does not
return: its condition `i, e` stays true, so it ends only in a fault (or the
model runs out of fuel). -/
theorem InstructionPattern.registerWith_operands_ne_returned (fuel : Nat)
    (p : InstructionPattern) (i e : Nat) (m : Matcher) (g : Process) (he : e ≠ 0) :
    (InstructionPattern.registerWith_operands fuel p i e m g).1 ≠ Outcome.returned := by
  induction fuel generalizing i m g with
  | zero =>
    simp [InstructionPattern.registerWith_operands]
  | succ n ih =>
    rw [InstructionPattern.registerWith_operands]
    simp only [bne_iff_ne, ne_eq, he, not_false_eq_true, if_true]
    split
    · simp
    · split
      · exact ih _ _ _
      · rename_i r hr
        intro hret
        exact hr (Pattern.registerWith n _ m g).2.1 (Pattern.registerWith n _ m g).2.2
          (Prod.ext hret (Prod.ext rfl rfl))

/-! ## Bottom and top -/

/-- C1: in each of the four lattice value types every value with `isBottom()`
is `<=` every value and every value is `<=` every value with `isTop()`; so a
value pattern that requires top matches every actual value `a` (`a <= top`),
in particular whenever a pattern that requires some `v` matches `a`. -/
theorem C1_bottom_least_top_greatest :
    ((∀ b x : RangeValue, b.isBottom = true → b.operator_le x = true) ∧
      (∀ x t : RangeValue, t.isTop = true → x.operator_le t = true) ∧
      (∀ a v : RangeValue, a.operator_le v = true →
        a.operator_le analysis.Range.top = true)) ∧
    ((∀ b x : CallTargetValue, b.isBottom = true → b.operator_le x = true) ∧
      (∀ x t : CallTargetValue, t.isTop = true → x.operator_le t = true) ∧
      (∀ a v : CallTargetValue, a.operator_le v = true →
        a.operator_le analysis.CallTarget.top = true)) ∧
    ((∀ b x : TypeShapeValue, b.isBottom = true → b.operator_le x = true) ∧
      (∀ x t : TypeShapeValue, t.isTop = true → x.operator_le t = true) ∧
      (∀ a v : TypeShapeValue, a.operator_le v = true →
        a.operator_le analysis.TypeShape.top = true)) ∧
    ((∀ b x : ConstantsValue, b.isBottom = true → b.operator_le x = true) ∧
      (∀ x t : ConstantsValue, t.isTop = true → x.operator_le t = true) ∧
      (∀ a v : ConstantsValue, a.operator_le v = true →
        a.operator_le analysis.Constants.top = true)) := by
  refine ⟨⟨?_, ?_, ?_⟩, ⟨?_, ?_, ?_⟩, ⟨?_, ?_, ?_⟩, ⟨?_, ?_, ?_⟩⟩
  · intro b x hb
    simp [RangeValue.operator_le, hb]
  · intro x t ht
    simp [RangeValue.operator_le, ht]
  · intro a _ _
    simp [RangeValue.operator_le, RangeValue.isTop, analysis.Range.top]
  · intro b x hb
    simp [CallTargetValue.operator_le, hb]
  · intro x t ht
    simp [CallTargetValue.operator_le, ht]
  · intro a _ _
    simp [CallTargetValue.operator_le, CallTargetValue.isTop, analysis.CallTarget.top]
  · intro b x hb
    simp [TypeShapeValue.operator_le, hb]
  · intro x t ht
    simp [TypeShapeValue.operator_le, ht]
  · intro a _ _
    simp [TypeShapeValue.operator_le, TypeShapeValue.isTop, analysis.TypeShape.top]
  · intro b x hb
    simp [ConstantsValue.operator_le, hb]
  · intro x t ht
    simp [ConstantsValue.operator_le, ht]
  · intro a _ _
    simp [ConstantsValue.operator_le, ConstantsValue.isTop, analysis.Constants.top]

/-! ## `RangeValue` is ordered by `<=` -/

/-- C2: `<=` on `RangeValue` is a partial order with respect to `==`: it is
reflexive, transitive, and two values each `<=` the other are `==`. -/
theorem C2_RangeValue_partial_order (x y z : RangeValue)
    (hx : x.isInt) (hy : y.isInt) (hz : z.isInt) :
    x.operator_le x = true ∧
    (x.operator_le y = true → y.operator_le z = true → x.operator_le z = true) ∧
    (x.operator_le y = true → y.operator_le x = true → x.operator_eq y = true) := by
  refine ⟨?_, ?_, ?_⟩
  · rw [RangeValue.operator_le_iff x x hx hx]
    omega
  · rw [RangeValue.operator_le_iff x y hx hy, RangeValue.operator_le_iff y z hy hz,
      RangeValue.operator_le_iff x z hx hz]
    omega
  · rw [RangeValue.operator_le_iff x y hx hy, RangeValue.operator_le_iff y x hy hx]
    intro h1 h2
    simp only [RangeValue.operator_eq, Bool.and_eq_true, beq_iff_eq]
    omega

/-- C2 at `[3, 3]`, `[1, 5]` and top. -/
theorem C2_RangeValue_partial_order_witness :
    (analysis.Range.constant 3).operator_le (analysis.Range.constant 3) = true ∧
    ((analysis.Range.constant 3).operator_le ⟨1, 5⟩ = true →
      (RangeValue.mk 1 5).operator_le analysis.Range.top = true →
      (analysis.Range.constant 3).operator_le analysis.Range.top = true) ∧
    ((analysis.Range.constant 3).operator_le ⟨1, 5⟩ = true →
      (RangeValue.mk 1 5).operator_le (analysis.Range.constant 3) = true →
      (analysis.Range.constant 3).operator_eq ⟨1, 5⟩ = true) :=
  C2_RangeValue_partial_order (analysis.Range.constant 3) ⟨1, 5⟩ analysis.Range.top
    (by decide) (by decide) (by decide)

/-! ## `RangeValue::mergeWith` is the join -/

/-- C5: for well-formed `x` and `y`, the receiver `z` after `x.mergeWith(y)`
is the least upper bound: `x <= z`, `y <= z`, and `z <= w` for every
well-formed `w` with `x <= w` and `y <= w`. -/
theorem C5_RangeValue_mergeWith_least_upper_bound (x y : RangeValue)
    (hx : x.isInt) (hy : y.isInt) (_wx : x.wellFormed) (_wy : y.wellFormed) :
    x.operator_le (x.mergeWith y).1 = true ∧
    y.operator_le (x.mergeWith y).1 = true ∧
    (∀ w : RangeValue, w.isInt → w.wellFormed →
      x.operator_le w = true → y.operator_le w = true →
      (x.mergeWith y).1.operator_le w = true) := by
  have hz := RangeValue.mergeWith_isInt x y hx hy
  have hmin := RangeValue.mergeWith_min_ x y
  have hmax := RangeValue.mergeWith_max_ x y
  refine ⟨?_, ?_, ?_⟩
  · rw [RangeValue.operator_le_iff x _ hx hz]
    omega
  · rw [RangeValue.operator_le_iff y _ hy hz]
    omega
  · intro w hw _
    rw [RangeValue.operator_le_iff x w hx hw, RangeValue.operator_le_iff y w hy hw,
      RangeValue.operator_le_iff _ w hz hw]
    omega

/-- C5 at `x = [3, 3]` and `y = [INT_MAX, INT_MIN]`, the canonical bottom. -/
theorem C5_RangeValue_mergeWith_least_upper_bound_witness :
    (analysis.Range.constant 3).operator_le
      ((analysis.Range.constant 3).mergeWith analysis.Range.bottom).1 = true ∧
    analysis.Range.bottom.operator_le
      ((analysis.Range.constant 3).mergeWith analysis.Range.bottom).1 = true ∧
    (∀ w : RangeValue, w.isInt → w.wellFormed →
      (analysis.Range.constant 3).operator_le w = true →
      analysis.Range.bottom.operator_le w = true →
      ((analysis.Range.constant 3).mergeWith analysis.Range.bottom).1.operator_le w = true) :=
  C5_RangeValue_mergeWith_least_upper_bound (analysis.Range.constant 3) analysis.Range.bottom
    (by decide) (by decide) (by decide) (by decide)

/-! ## `CallTargetValue`: what `<=` and `mergeWith` compute -/

/-- C3: what `<=` on `CallTargetValue` computes where the claimed partial
order fails.  Top `<=` bottom and bottom `<=` top, yet they are not `==`; and
for a target `t`, `certain(t) <= top` and `top <= bottom`, yet not
`certain(t) <= bottom`.  Reflexivity does hold. -/
theorem C3_CallTargetValue_top_le_bottom :
    analysis.CallTarget.top.operator_le analysis.CallTarget.bottom = true ∧
    analysis.CallTarget.bottom.operator_le analysis.CallTarget.top = true ∧
    analysis.CallTarget.top.operator_eq analysis.CallTarget.bottom = false ∧
    (∀ t : Ptr, t ≠ nullptr →
      (analysis.CallTarget.certain t).operator_le analysis.CallTarget.top = true ∧
      (analysis.CallTarget.certain t).operator_le analysis.CallTarget.bottom = false) ∧
    (∀ x : CallTargetValue, x.operator_le x = true) := by
  refine ⟨by decide, by decide, by decide, ?_, ?_⟩
  · intro t ht
    simp only [nullptr] at ht
    simp [CallTargetValue.operator_le, CallTargetValue.isBottom, CallTargetValue.isTop,
      analysis.CallTarget.certain, analysis.CallTarget.top, analysis.CallTarget.bottom,
      nullptr, ht]
  · rintro ⟨a, t⟩
    cases a <;> simp [CallTargetValue.operator_le]

/-- C4: for every target `t` the code computes `possible(t) <= certain(t)` as
true, so by the match rule a pattern that requires `certain(t)` matches an
actual value `possible(t)`. -/
theorem C4_possible_le_certain (t : Ptr) :
    (analysis.CallTarget.possible t).operator_le (analysis.CallTarget.certain t) = true := by
  simp [CallTargetValue.operator_le, analysis.CallTarget.possible, analysis.CallTarget.certain]

/-- C6: for a target `t`, `certain(t).mergeWith(bottom)` leaves the receiver
at bottom, and `certain(t).mergeWith(possible(t))` leaves it at
`possible(t)`; in both cases the old receiver `certain(t)` is not `<=` the
new one. -/
theorem C6_CallTargetValue_mergeWith_not_upper_bound (t : Ptr) (ht : t ≠ nullptr) :
    ((analysis.CallTarget.certain t).mergeWith analysis.CallTarget.bottom).1
      = analysis.CallTarget.bottom ∧
    (analysis.CallTarget.certain t).operator_le
      ((analysis.CallTarget.certain t).mergeWith analysis.CallTarget.bottom).1 = false ∧
    ((analysis.CallTarget.certain t).mergeWith (analysis.CallTarget.possible t)).1
      = analysis.CallTarget.possible t ∧
    (analysis.CallTarget.certain t).operator_le
      ((analysis.CallTarget.certain t).mergeWith (analysis.CallTarget.possible t)).1 = false := by
  simp only [nullptr] at ht
  simp [CallTargetValue.mergeWith, CallTargetValue.operator_le, CallTargetValue.isBottom,
    CallTargetValue.isTop, analysis.CallTarget.certain, analysis.CallTarget.possible,
    analysis.CallTarget.bottom, nullptr, ht]

/-- C6 at the target with address 7. -/
theorem C6_CallTargetValue_mergeWith_not_upper_bound_witness :
    ((analysis.CallTarget.certain 7).mergeWith analysis.CallTarget.bottom).1
      = analysis.CallTarget.bottom ∧
    (analysis.CallTarget.certain 7).operator_le
      ((analysis.CallTarget.certain 7).mergeWith analysis.CallTarget.bottom).1 = false ∧
    ((analysis.CallTarget.certain 7).mergeWith (analysis.CallTarget.possible 7)).1
      = analysis.CallTarget.possible 7 ∧
    (analysis.CallTarget.certain 7).operator_le
      ((analysis.CallTarget.certain 7).mergeWith (analysis.CallTarget.possible 7)).1 = false :=
  C6_CallTargetValue_mergeWith_not_upper_bound 7 (by decide)

/-! ## The flag returned by `mergeWith` -/

/-- C7: `mergeWith` of `RangeValue`, `TypeShapeValue` and `ConstantsValue`
returns true exactly when the receiver afterwards is not `==` the receiver
before.  `mergeWith` of `CallTargetValue` does not: a receiver without target
(here top) merged with `possible(t)` or `certain(t)` returns true and is
unchanged. -/
theorem C7_mergeWith_returned_flag :
    (∀ x y : RangeValue,
      (x.mergeWith y).2 = true ↔ (x.mergeWith y).1.operator_eq x = false) ∧
    (∀ x y : TypeShapeValue,
      (x.mergeWith y).2 = true ↔ (x.mergeWith y).1.operator_eq x = false) ∧
    (∀ x y : ConstantsValue,
      (x.mergeWith y).2 = true ↔ (x.mergeWith y).1.operator_eq x = false) ∧
    (∀ t : Ptr, t ≠ nullptr →
      (analysis.CallTarget.top.mergeWith (analysis.CallTarget.possible t)).2 = true ∧
      (analysis.CallTarget.top.mergeWith (analysis.CallTarget.possible t)).1.operator_eq
        analysis.CallTarget.top = true ∧
      (analysis.CallTarget.top.mergeWith (analysis.CallTarget.certain t)).2 = true ∧
      (analysis.CallTarget.top.mergeWith (analysis.CallTarget.certain t)).1.operator_eq
        analysis.CallTarget.top = true) := by
  refine ⟨?_, ?_, ?_, ?_⟩
  · rintro ⟨a, b⟩ ⟨c, d⟩
    by_cases h1 : c < a <;> by_cases h2 : d > b <;>
      simp [RangeValue.mergeWith, RangeValue.operator_eq, h1, h2] <;> omega
  · rintro ⟨a, b⟩ y
    simp [TypeShapeValue.mergeWith, TypeShapeValue.operator_eq]
  · rintro ⟨a⟩ y
    simp [ConstantsValue.mergeWith, ConstantsValue.operator_eq]
  · intro t ht
    simp only [nullptr] at ht
    simp [CallTargetValue.mergeWith, CallTargetValue.operator_eq, analysis.CallTarget.top,
      analysis.CallTarget.possible, analysis.CallTarget.certain, nullptr, ht, Ne.symm ht]

/-! ## What is above top -/

/-- C8: in `RangeValue`, `TypeShapeValue` and `ConstantsValue`, a value `v`
with top `<=` `v` is top.  In `CallTargetValue` it need not be: top `<=`
bottom, and bottom is neither `isTop()` nor `==` top. -/
theorem C8_values_above_top :
    (∀ v : RangeValue, v.isInt → analysis.Range.top.operator_le v = true →
      v.isTop = true ∧ v.operator_eq analysis.Range.top = true) ∧
    (∀ v : TypeShapeValue, analysis.TypeShape.top.operator_le v = true →
      v.isTop = true ∧ v.operator_eq analysis.TypeShape.top = true) ∧
    (∀ v : ConstantsValue, analysis.Constants.top.operator_le v = true →
      v.isTop = true ∧ v.operator_eq analysis.Constants.top = true) ∧
    (analysis.CallTarget.top.operator_le analysis.CallTarget.bottom = true ∧
      analysis.CallTarget.bottom.isTop = false ∧
      analysis.CallTarget.bottom.operator_eq analysis.CallTarget.top = false) := by
  refine ⟨?_, ?_, ?_, by decide, by decide, by decide⟩
  · intro v hv h
    have ht : analysis.Range.top.isInt := by decide
    rw [RangeValue.operator_le_iff _ v ht hv] at h
    simp only [RangeValue.isInt, INT_MIN, INT_MAX, analysis.Range.top] at hv h
    simp only [RangeValue.isTop, RangeValue.operator_eq, analysis.Range.top, INT_MIN, INT_MAX,
      Bool.and_eq_true, beq_iff_eq]
    omega
  · rintro ⟨a, b⟩ h
    cases a <;> cases b <;>
      simp_all [TypeShapeValue.operator_le, TypeShapeValue.isTop, TypeShapeValue.isBottom,
        TypeShapeValue.operator_eq, analysis.TypeShape.top]
  · rintro ⟨a⟩ h
    simp_all [ConstantsValue.operator_le, ConstantsValue.isTop, ConstantsValue.isBottom,
      ConstantsValue.operator_eq, analysis.Constants.top, nullptr]
    rcases h with h | h
    · exact h
    · exact h.symm

/-! ## Registration of a pattern tree -/

/-- C9: registering the `SimplerAdd` rule with a fresh matcher does not
complete.  With any fuel the call never returns; with fuel 5 or more it
writes the four attachments (the `Call` opcode, CallTarget `certain("+")`,
TypeShape naked `Int` twice) and then, as the loop condition `i, e` is still
true at `i = 3`, indexes `operands_` past its end. -/
theorem C9_addVisitlet_SimplerAdd_runs_past_operands (plus : Ptr) :
    (∀ fuel : Nat,
      (Matcher.initial.addVisitlet fuel (SimplerAdd.visitlet plus) Process.initial).1
        ≠ Outcome.returned) ∧
    (∀ fuel : Nat, 5 ≤ fuel →
      (Matcher.initial.addVisitlet fuel (SimplerAdd.visitlet plus) Process.initial).1
        = Outcome.fault Fault.outOfRange ∧
      (Matcher.initial.addVisitlet fuel (SimplerAdd.visitlet plus) Process.initial).2.2.cout
        = [Event.attachToInstruction (SimplerAdd.e plus) Opcode.Call,
           Event.attachToAnalysis (SimplerAdd.f plus) 0
             (AnalysisValue.CallTarget (analysis.CallTarget.certain plus)),
           Event.attachToAnalysis SimplerAdd.lhs 1
             (AnalysisValue.TypeShape (analysis.TypeShape.naked TypeTag.Int)),
           Event.attachToAnalysis SimplerAdd.rhs 1
             (AnalysisValue.TypeShape (analysis.TypeShape.naked TypeTag.Int))]) := by
  have big : ∀ n : Nat,
      (Matcher.initial.addVisitlet (n + 5) (SimplerAdd.visitlet plus) Process.initial).1
        = Outcome.fault Fault.outOfRange := fun _ => rfl
  constructor
  · intro fuel
    rcases Nat.lt_or_ge fuel 5 with h | h
    · have h5 : fuel = 0 ∨ fuel = 1 ∨ fuel = 2 ∨ fuel = 3 ∨ fuel = 4 := by omega
      rcases h5 with h0 | h0 | h0 | h0 | h0 <;> subst h0 <;> intro hr <;> cases hr
    · obtain ⟨n, rfl⟩ := Nat.exists_eq_add_of_le h
      rw [Nat.add_comm 5 n, big n]
      intro hr
      cases hr
  · intro fuel h
    obtain ⟨n, rfl⟩ := Nat.exists_eq_add_of_le h
    rw [Nat.add_comm 5 n]
    exact ⟨rfl, rfl⟩

/-! ## `operand` -/

/-- C10: what `operand(i)` does.  `Push` fails its assertion at every index.
`Add` returns `lhs` at 0 and `rhs` at 1 and fails its assertion from 2 on.
`Call` returns `f` at 0 and the `k`-th constructor argument at `k + 1`; at an
index `i >= operands()` it fails no assertion but indexes the vector
`operands_` past its end, unchecked. -/
theorem C10_operand_in_and_out_of_range :
    (InstructionPattern.Push.operands = 0 ∧
      ∀ i : Nat, InstructionPattern.Push.operand i
        = Except.error (Fault.assertion "instruction has no operands")) ∧
    (∀ lhs rhs : Pattern,
      (InstructionPattern.Add lhs rhs).operands = 2 ∧
      (InstructionPattern.Add lhs rhs).operand 0 = Except.ok lhs ∧
      (InstructionPattern.Add lhs rhs).operand 1 = Except.ok rhs ∧
      ∀ i : Nat, (InstructionPattern.Add lhs rhs).operands ≤ i →
        (InstructionPattern.Add lhs rhs).operand i
          = Except.error (Fault.assertion "instruction has only two operands")) ∧
    (∀ (f : Pattern) (arguments : List Pattern),
      (InstructionPattern.Call f arguments).operands = arguments.length + 1 ∧
      (InstructionPattern.Call f arguments).operand 0 = Except.ok f ∧
      (∀ (k : Nat) (p : Pattern), arguments[k]? = some p →
        (InstructionPattern.Call f arguments).operand (k + 1) = Except.ok p) ∧
      ∀ i : Nat, (InstructionPattern.Call f arguments).operands ≤ i →
        (InstructionPattern.Call f arguments).operand i = Except.error Fault.outOfRange) := by
  refine ⟨⟨rfl, fun _ => rfl⟩, ?_, ?_⟩
  · intro lhs rhs
    refine ⟨rfl, rfl, rfl, ?_⟩
    intro i hi
    simp only [InstructionPattern.operands] at hi
    have h0 : i ≠ 0 := by omega
    have h1 : i ≠ 1 := by omega
    simp [InstructionPattern.operand, h0, h1]
  · intro f arguments
    refine ⟨?_, ?_, ?_, ?_⟩
    · simp [InstructionPattern.operands, InstructionPattern.Call_operands_, Nat.add_comm]
    · simp [InstructionPattern.operand, InstructionPattern.Call_operands_]
    · intro k p hk
      simp [InstructionPattern.operand, InstructionPattern.Call_operands_, hk]
    · intro i hi
      simp only [InstructionPattern.operands, InstructionPattern.Call_operands_] at hi
      have hnone : ([f] ++ arguments)[i]? = none := List.getElem?_eq_none hi
      simp only [InstructionPattern.operand, InstructionPattern.Call_operands_, hnone]

/-! ## Queries return top -/

/-- C11: for each of the four analysis families and every location `p`, the
query `operator[](p)` returns a value that is `isTop()`, is `==` the family's
`top()`, and is not `isBottom()`. -/
theorem C11_operator_index_returns_top (p : Option Pattern) :
    ((analysis.Range.operator_index p).isTop = true ∧
      (analysis.Range.operator_index p).operator_eq analysis.Range.top = true ∧
      (analysis.Range.operator_index p).isBottom = false) ∧
    ((analysis.CallTarget.operator_index p).isTop = true ∧
      (analysis.CallTarget.operator_index p).operator_eq analysis.CallTarget.top = true ∧
      (analysis.CallTarget.operator_index p).isBottom = false) ∧
    ((analysis.TypeShape.operator_index p).isTop = true ∧
      (analysis.TypeShape.operator_index p).operator_eq analysis.TypeShape.top = true ∧
      (analysis.TypeShape.operator_index p).isBottom = false) ∧
    ((analysis.Constants.operator_index p).isTop = true ∧
      (analysis.Constants.operator_index p).operator_eq analysis.Constants.top = true ∧
      (analysis.Constants.operator_index p).isBottom = false) := by
  refine ⟨⟨?_, ?_, ?_⟩, ⟨?_, ?_, ?_⟩, ⟨?_, ?_, ?_⟩, ⟨?_, ?_, ?_⟩⟩ <;> rfl

/-! ## `mergeWith` is idempotent -/

/-- C12: in each of the four lattice value types `x.mergeWith(x)` returns
false and leaves a receiver that is `==` the receiver before. -/
theorem C12_mergeWith_self_is_no_op :
    (∀ x : RangeValue,
      (x.mergeWith x).2 = false ∧ (x.mergeWith x).1.operator_eq x = true) ∧
    (∀ x : CallTargetValue,
      (x.mergeWith x).2 = false ∧ (x.mergeWith x).1.operator_eq x = true) ∧
    (∀ x : TypeShapeValue,
      (x.mergeWith x).2 = false ∧ (x.mergeWith x).1.operator_eq x = true) ∧
    (∀ x : ConstantsValue,
      (x.mergeWith x).2 = false ∧ (x.mergeWith x).1.operator_eq x = true) := by
  refine ⟨?_, ?_, ?_, ?_⟩
  · rintro ⟨a, b⟩
    simp [RangeValue.mergeWith, RangeValue.operator_eq]
  · rintro ⟨a, t⟩
    cases a <;> simp [CallTargetValue.mergeWith, CallTargetValue.operator_eq]
  · rintro ⟨a, b⟩
    simp [TypeShapeValue.mergeWith, TypeShapeValue.operator_eq]
  · rintro ⟨a⟩
    simp [ConstantsValue.mergeWith, ConstantsValue.operator_eq]

/-! ## `ConstantsValue` is ordered by `<=` -/

/-- C13: `<=` on `ConstantsValue` is a partial order with respect to `==`: it
is reflexive, transitive, and two values each `<=` the other are `==`. -/
theorem C13_ConstantsValue_partial_order (x y z : ConstantsValue) :
    x.operator_le x = true ∧
    (x.operator_le y = true → y.operator_le z = true → x.operator_le z = true) ∧
    (x.operator_le y = true → y.operator_le x = true → x.operator_eq y = true) := by
  obtain ⟨a⟩ := x
  obtain ⟨b⟩ := y
  obtain ⟨c⟩ := z
  simp only [ConstantsValue.operator_le, ConstantsValue.isBottom, ConstantsValue.isTop,
    ConstantsValue.operator_eq, nullptr, Bool.or_eq_true, beq_iff_eq, ite_eq_left_iff,
    not_or, and_imp, Bool.true_eq, Bool.if_true_left, decide_eq_true_eq]
  have key : ∀ a b c : Nat, ((a = 1 ∨ a = 0) ∨ True) ∧
      ((a = 1 ∨ b = 0) ∨ a = b → (b = 1 ∨ c = 0) ∨ b = c → (a = 1 ∨ c = 0) ∨ a = c) ∧
      ((a = 1 ∨ b = 0) ∨ a = b → (b = 1 ∨ a = 0) ∨ b = a → a = b) := by
    intro a b c
    refine ⟨Or.inr trivial, ?_, ?_⟩ <;> omega
  exact key a b c

/-! ## `TypeShapeValue`: what `<=` computes -/

/-- C14: what `<=` on `TypeShapeValue` computes where the claimed laws fail.
`x <= x` is true only for an `x` that is bottom or top, so naked `Int` is not
`<=` itself; and `Bottom/Naked` and `Bottom/Any` are each `<=` the other
without being `==`. -/
theorem C14_TypeShapeValue_le_not_reflexive :
    (∀ x : TypeShapeValue,
      x.operator_le x = true ↔ (x.isBottom = true ∨ x.isTop = true)) ∧
    (analysis.TypeShape.naked TypeTag.Int).operator_le
      (analysis.TypeShape.naked TypeTag.Int) = false ∧
    ((analysis.TypeShape.naked TypeTag.Bottom).operator_le analysis.TypeShape.bottom = true ∧
      analysis.TypeShape.bottom.operator_le (analysis.TypeShape.naked TypeTag.Bottom) = true ∧
      (analysis.TypeShape.naked TypeTag.Bottom).operator_eq analysis.TypeShape.bottom
        = false) := by
  refine ⟨?_, by decide, by decide, by decide, by decide⟩
  rintro ⟨a, b⟩
  simp [TypeShapeValue.operator_le]

/-! ## `mergeWith` of `ConstantsValue` and `TypeShapeValue` -/

/-- C15: `mergeWith` of `ConstantsValue` and of `TypeShapeValue` leaves the
receiver as it was.  So for two distinct constants `p` and `q` the merged
receiver is `constant(p)`, and `constant(q)` is not `<=` it; and naked `Int`
merged with top stays naked `Int`, and neither naked `Int` nor top is `<=`
it. -/
theorem C15_mergeWith_leaves_receiver :
    (∀ x y : ConstantsValue, (x.mergeWith y).1 = x) ∧
    (∀ x y : TypeShapeValue, (x.mergeWith y).1 = x) ∧
    (∀ p q : Ptr, 1 < p → 1 < q → p ≠ q →
      (analysis.Constants.constant q).operator_le
        ((analysis.Constants.constant p).mergeWith (analysis.Constants.constant q)).1
        = false) ∧
    ((analysis.TypeShape.naked TypeTag.Int).operator_le
        ((analysis.TypeShape.naked TypeTag.Int).mergeWith analysis.TypeShape.top).1 = false ∧
      analysis.TypeShape.top.operator_le
        ((analysis.TypeShape.naked TypeTag.Int).mergeWith analysis.TypeShape.top).1
        = false) := by
  refine ⟨fun _ _ => rfl, fun _ _ => rfl, ?_, by decide, by decide⟩
  intro p q hp hq hpq
  have h1 : q ≠ 1 := Nat.ne_of_gt hq
  have h0 : p ≠ 0 := Nat.not_eq_zero_of_lt hp
  simp [ConstantsValue.mergeWith, ConstantsValue.operator_le, ConstantsValue.isBottom,
    ConstantsValue.isTop, analysis.Constants.constant, nullptr, h1, h0, Ne.symm hpq]

/-! ## Inverted bounds -/

/-- C16, as stated, fails at `[5, 3]`: its bounds are inverted, yet it is not
`isBottom()` and it is not `<=` the value `[0, 0]`. -/
theorem C16_inverted_bounds_counterexample :
    (5 : Int) > 3 ∧ (RangeValue.mk 5 3).isInt ∧
    (RangeValue.mk 5 3).isBottom = false ∧
    (RangeValue.mk 5 3).operator_le (analysis.Range.constant 0) = false := by
  decide

/-- C16, amended: only the canonical bottom `[INT_MAX, INT_MIN]` is treated
as bottom.  A value with inverted bounds `min > max` is `isBottom()`, and is
`<=` every Range value, exactly when it is `[INT_MAX, INT_MIN]`; the canonical
bottom is both; and `Range::range(min, max)` with `min > max` fails its
assertion instead of producing a value. -/
theorem C16_only_canonical_bottom (min max : Int) (h : min > max)
    (hi : (RangeValue.mk min max).isInt) :
    ((RangeValue.mk min max).isBottom = true ↔ (min = INT_MAX ∧ max = INT_MIN)) ∧
    ((∀ x : RangeValue, x.isInt → (RangeValue.mk min max).operator_le x = true) ↔
      (min = INT_MAX ∧ max = INT_MIN)) ∧
    (analysis.Range.bottom.isBottom = true ∧
      ∀ x : RangeValue, analysis.Range.bottom.operator_le x = true) ∧
    analysis.Range.range min max = none := by
  refine ⟨?_, ?_, ⟨by decide, ?_⟩, ?_⟩
  · simp [RangeValue.isBottom]
  · constructor
    · intro hall
      have hb : analysis.Range.bottom.isInt := by decide
      have h1 := (RangeValue.operator_le_iff _ _ hi hb).mp (hall _ hb)
      simp only [RangeValue.isInt, INT_MIN, INT_MAX] at hi
      simp only [analysis.Range.bottom, INT_MIN, INT_MAX] at h1 ⊢
      omega
    · rintro ⟨rfl, rfl⟩ x _
      simp [RangeValue.operator_le, RangeValue.isBottom]
  · intro x
    simp [RangeValue.operator_le, RangeValue.isBottom, analysis.Range.bottom]
  · have hn : ¬ min ≤ max := by omega
    simp [analysis.Range.range, hn]

/-- C16, amended, at `[5, 3]`. -/
theorem C16_only_canonical_bottom_witness :
    ((RangeValue.mk 5 3).isBottom = true ↔ ((5 : Int) = INT_MAX ∧ (3 : Int) = INT_MIN)) ∧
    ((∀ x : RangeValue, x.isInt → (RangeValue.mk 5 3).operator_le x = true) ↔
      ((5 : Int) = INT_MAX ∧ (3 : Int) = INT_MIN)) ∧
    (analysis.Range.bottom.isBottom = true ∧
      ∀ x : RangeValue, analysis.Range.bottom.operator_le x = true) ∧
    analysis.Range.range 5 3 = none :=
  C16_only_canonical_bottom 5 3 (by decide) (by decide)

/-! ## Indices of the analysis families -/

/-- C17: what `analysisIndex` computes.  The index of a family is stable:
after a call the static of that family holds the returned index, a static
that is set is returned unchanged on whatever matcher, and calls for other
families leave it.  A first call returns the size of `analyses_` of the
matcher it is made on.  So indices are not unique across matchers: a first
call for `Range` on one fresh matcher and a first call for `CallTarget` on
another both return 0. -/
theorem C17_analysisIndex_stable_not_unique :
    (∀ (a : Family) (m : Matcher) (g : Process),
      (Matcher.analysisIndex a m g).2.2.statics.get a
        = some (Matcher.analysisIndex a m g).1) ∧
    (∀ (a : Family) (i : Nat) (m : Matcher) (g : Process), g.statics.get a = some i →
      Matcher.analysisIndex a m g = (i, m, g)) ∧
    (∀ (a b : Family) (i : Nat) (m : Matcher) (g : Process), g.statics.get a = some i →
      (Matcher.analysisIndex b m g).2.2.statics.get a = some i) ∧
    (∀ (a : Family) (m : Matcher) (g : Process), g.statics.get a = none →
      (Matcher.analysisIndex a m g).1 = m.analyses_.length ∧
      (Matcher.analysisIndex a m g).2.1.analyses_.length = m.analyses_.length + 1) ∧
    ((Matcher.analysisIndex Family.Range Matcher.initial Process.initial).1 = 0 ∧
      (Matcher.analysisIndex Family.CallTarget Matcher.initial
        (Matcher.analysisIndex Family.Range Matcher.initial Process.initial).2.2).1 = 0) := by
  refine ⟨?_, ?_, ?_, ?_, rfl, rfl⟩
  · intro a m g
    cases h : g.statics.get a with
    | some i => simp only [Matcher.analysisIndex, h]
    | none =>
      simp only [Matcher.analysisIndex, h]
      exact Statics.get_set_same _ _ _
  · intro a i m g h
    simp only [Matcher.analysisIndex, h]
  · intro a b i m g h
    cases hb : g.statics.get b with
    | some j =>
      simp only [Matcher.analysisIndex, hb]
      exact h
    | none =>
      have hab : a ≠ b := by
        intro e
        rw [e, hb] at h
        cases h
      simp only [Matcher.analysisIndex, hb]
      rw [Statics.get_set_other _ _ _ _ hab]
      exact h
  · intro a m g h
    simp [Matcher.analysisIndex, h, Matcher.reserveAnalysis]

/-! ## The rewrite of `SimplerAdd` -/

/-- C18: with the provided `Constants` analysis `SimplerAdd::match` takes the
branch without folding and calls `e->replaceWith(new Add(lhs, rhs))`; but
`replaceWith` returns with nothing changed, so the position of `e` still
holds the `Call` pattern and not the new `Add` pattern. -/
theorem C18_match_replaceWith_changes_nothing (plus : Ptr) :
    (SimplerAdd.match plus).replaceWith_call
      = some (SimplerAdd.e plus,
          Pattern.Instruction (InstructionPattern.Add SimplerAdd.lhs SimplerAdd.rhs)) ∧
    (SimplerAdd.match plus).e = SimplerAdd.e plus ∧
    (SimplerAdd.match plus).e
      ≠ Pattern.Instruction (InstructionPattern.Add SimplerAdd.lhs SimplerAdd.rhs) ∧
    (∀ receiver w : Pattern, receiver.replaceWith w = receiver) := by
  refine ⟨rfl, rfl, ?_, fun _ _ => rfl⟩
  intro h
  have h2 : (SimplerAdd.match plus).e = SimplerAdd.e plus := rfl
  rw [h2] at h
  simp [SimplerAdd.e] at h

/-! ## The operand loop of `registerWith` -/

/-- C19: what `InstructionPattern::registerWith` does.  For a pattern with
`operands()` not zero the call never returns, with any fuel: the loop runs on
past the last operand.  For `Add` over two value patterns it calls
`operand(2)` and fails the assertion of `Add::operand` (fuel 4 is enough).
Only for `Push`, with no operands, does it return, after its one
attachment. -/
theorem C19_registerWith_queries_operand_out_of_range :
    (∀ (fuel : Nat) (p : InstructionPattern) (m : Matcher) (g : Process), p.operands ≠ 0 →
      (Pattern.registerWith fuel (Pattern.Instruction p) m g).1 ≠ Outcome.returned) ∧
    (∀ (fuel : Nat) (a b : AnalysisValue) (m : Matcher) (g : Process), 4 ≤ fuel →
      (Pattern.registerWith fuel
        (Pattern.Instruction
          (InstructionPattern.Add (Pattern.TypePattern a) (Pattern.TypePattern b))) m g).1
        = Outcome.fault (Fault.assertion "instruction has only two operands")) ∧
    (∀ (fuel : Nat) (m : Matcher) (g : Process), 2 ≤ fuel →
      Pattern.registerWith fuel (Pattern.Instruction InstructionPattern.Push) m g
        = (Outcome.returned, m,
            { g with cout := g.cout ++
                [Event.attachToInstruction (Pattern.Instruction InstructionPattern.Push)
                  Opcode.Push] })) := by
  refine ⟨?_, ?_, ?_⟩
  · intro fuel p m g hp
    cases fuel with
    | zero => simp [Pattern.registerWith]
    | succ n =>
      rw [Pattern.registerWith]
      exact InstructionPattern.registerWith_operands_ne_returned n p 0 p.operands _ _ hp
  · intro fuel a b m g h
    obtain ⟨n, rfl⟩ := Nat.exists_eq_add_of_le h
    rw [Nat.add_comm 4 n]
    rfl
  · intro fuel m g h
    obtain ⟨n, rfl⟩ := Nat.exists_eq_add_of_le h
    rw [Nat.add_comm 2 n]
    rfl

/-! ## Well-formed `RangeValue`s -/

/-- C20: well-formedness of `RangeValue`s is an invariant.  `constant(v)`,
`range(min, max)` with `min <= max`, `top()` and `bottom()` are well-formed;
and for well-formed `x` and `y` the receiver after `x.mergeWith(y)` is
well-formed, where bottom merged with `y` gives `y` and `x` merged with bottom
is left unchanged. -/
theorem C20_RangeValue_wellFormed_invariant (x y : RangeValue)
    (hx : x.isInt) (hy : y.isInt) (wx : x.wellFormed) (wy : y.wellFormed) :
    ((x.mergeWith y).1.wellFormed ∧ (x.mergeWith y).1.isInt) ∧
    (analysis.Range.bottom.mergeWith y).1 = y ∧
    x.mergeWith analysis.Range.bottom = (x, false) ∧
    (∀ v : Int, (analysis.Range.constant v).wellFormed) ∧
    (∀ min max : Int, min ≤ max →
      analysis.Range.range min max = some ⟨min, max⟩ ∧ (RangeValue.mk min max).wellFormed) ∧
    analysis.Range.top.wellFormed ∧
    analysis.Range.bottom.wellFormed := by
  have hmin := RangeValue.mergeWith_min_ x y
  have hmax := RangeValue.mergeWith_max_ x y
  refine ⟨⟨?_, RangeValue.mergeWith_isInt x y hx hy⟩, ?_, ?_, ?_, ?_, by decide, by decide⟩
  · simp only [RangeValue.wellFormed] at wx wy ⊢
    rw [hmin, hmax]
    omega
  · obtain ⟨c, d⟩ := y
    simp only [RangeValue.isInt, INT_MIN, INT_MAX] at hy
    have h1 : c < 2147483647 ∨ c = 2147483647 := by omega
    have h2 : d > -2147483648 ∨ d = -2147483648 := by omega
    rcases h1 with h1 | h1 <;> rcases h2 with h2 | h2 <;>
      simp [RangeValue.mergeWith, analysis.Range.bottom, INT_MIN, INT_MAX, h1, h2]
  · obtain ⟨a, b⟩ := x
    simp only [RangeValue.isInt, INT_MIN, INT_MAX] at hx
    have h1 : ¬ (2147483647 < a) := by omega
    have h2 : ¬ (-2147483648 > b) := by omega
    simp [RangeValue.mergeWith, analysis.Range.bottom, INT_MIN, INT_MAX, h1, h2]
  · intro v
    simp [RangeValue.wellFormed, analysis.Range.constant]
  · intro min max h
    simp [analysis.Range.range, RangeValue.wellFormed, h]

/-- C20 at `x = [3, 3]` and `y = [1, 5]`. -/
theorem C20_RangeValue_wellFormed_invariant_witness :
    (((analysis.Range.constant 3).mergeWith ⟨1, 5⟩).1.wellFormed ∧
      ((analysis.Range.constant 3).mergeWith ⟨1, 5⟩).1.isInt) ∧
    (analysis.Range.bottom.mergeWith ⟨1, 5⟩).1 = ⟨1, 5⟩ ∧
    (analysis.Range.constant 3).mergeWith analysis.Range.bottom
      = (analysis.Range.constant 3, false) ∧
    (∀ v : Int, (analysis.Range.constant v).wellFormed) ∧
    (∀ min max : Int, min ≤ max →
      analysis.Range.range min max = some ⟨min, max⟩ ∧ (RangeValue.mk min max).wellFormed) ∧
    analysis.Range.top.wellFormed ∧
    analysis.Range.bottom.wellFormed :=
  C20_RangeValue_wellFormed_invariant (analysis.Range.constant 3) ⟨1, 5⟩
    (by decide) (by decide) (by decide) (by decide)

/-! ## `<=` on `RangeValue` is interval inclusion -/

/-- C21: on well-formed `RangeValue`s `<=` is inclusion of intervals.  With
`S(x)` the set of the `n` with `x.min() <= n <= x.max()`, which is empty for
the canonical bottom, `x <= y` holds exactly when `S(x)` is a subset of
`S(y)`, whether `n` ranges over all integers or over the values of `int`; in
particular `constant(v) <= range(a, b)` holds exactly when `a <= v <= b`. -/
theorem C21_RangeValue_le_iff_interval_inclusion (x y : RangeValue)
    (hx : x.isInt) (hy : y.isInt) (wx : x.wellFormed) (_wy : y.wellFormed) :
    (x.operator_le y = true ↔ ∀ n : Int, x.S n → y.S n) ∧
    (x.operator_le y = true ↔
      ∀ n : Int, INT_MIN ≤ n → n ≤ INT_MAX → x.S n → y.S n) ∧
    (∀ n : Int, ¬ analysis.Range.bottom.S n) ∧
    (∀ v a b : Int, INT_MIN ≤ v → v ≤ INT_MAX → INT_MIN ≤ a → b ≤ INT_MAX → a ≤ b →
      analysis.Range.range a b = some ⟨a, b⟩ ∧
      ((analysis.Range.constant v).operator_le ⟨a, b⟩ = true ↔ (a ≤ v ∧ v ≤ b))) := by
  refine ⟨?_, ?_, ?_, ?_⟩
  · rw [RangeValue.operator_le_iff x y hx hy]
    simp only [RangeValue.S, RangeValue.min, RangeValue.max]
    simp only [RangeValue.isInt, RangeValue.wellFormed, INT_MIN, INT_MAX] at hx hy wx
    constructor
    · intro h n hn
      omega
    · intro h
      have h1 := h x.min_
      have h2 := h x.max_
      omega
  · rw [RangeValue.operator_le_iff x y hx hy]
    simp only [RangeValue.S, RangeValue.min, RangeValue.max]
    simp only [RangeValue.isInt, RangeValue.wellFormed, INT_MIN, INT_MAX] at hx hy wx ⊢
    constructor
    · intro h n _ _ hn
      omega
    · intro h
      have h1 := h x.min_
      have h2 := h x.max_
      omega
  · intro n
    simp only [RangeValue.S, RangeValue.min, RangeValue.max, analysis.Range.bottom,
      INT_MIN, INT_MAX]
    omega
  · intro v a b hv1 hv2 ha hb hab
    have hc : (analysis.Range.constant v).isInt := ⟨hv1, hv2, hv1, hv2⟩
    have hr : (RangeValue.mk a b).isInt := by
      simp only [RangeValue.isInt, INT_MIN, INT_MAX] at *
      omega
    refine ⟨by simp [analysis.Range.range, hab], ?_⟩
    rw [RangeValue.operator_le_iff _ _ hc hr]
    simp [analysis.Range.constant]

/-- C21 at `x = [3, 3]` and `y = [1, 5]`. -/
theorem C21_RangeValue_le_iff_interval_inclusion_witness :
    ((analysis.Range.constant 3).operator_le ⟨1, 5⟩ = true ↔
      ∀ n : Int, (analysis.Range.constant 3).S n → (RangeValue.mk 1 5).S n) ∧
    ((analysis.Range.constant 3).operator_le ⟨1, 5⟩ = true ↔
      ∀ n : Int, INT_MIN ≤ n → n ≤ INT_MAX →
        (analysis.Range.constant 3).S n → (RangeValue.mk 1 5).S n) ∧
    (∀ n : Int, ¬ analysis.Range.bottom.S n) ∧
    (∀ v a b : Int, INT_MIN ≤ v → v ≤ INT_MAX → INT_MIN ≤ a → b ≤ INT_MAX → a ≤ b →
      analysis.Range.range a b = some ⟨a, b⟩ ∧
      ((analysis.Range.constant v).operator_le ⟨a, b⟩ = true ↔ (a ≤ v ∧ v ≤ b))) :=
  C21_RangeValue_le_iff_interval_inclusion (analysis.Range.constant 3) ⟨1, 5⟩
    (by decide) (by decide) (by decide) (by decide)

end Visitlets
